import Mathlib

/-!
Verification of the `@atomist/sdm-pack-version` release pack.

Shallow embedding of `src/lib/release.ts` and `src/lib/github.ts`.
JavaScript strings are embedded as Lean `String` (or `List Char` where the
push-test regular expressions require reasoning about concatenation),
numbers used as status codes as `Int`, optional object properties as
`Option`, promise rejection / thrown errors as `Except String`.
-/

namespace SdmPackVersion

/-- Embedding of the host's `ExecuteGoalResult` shape as the code of this
pack actually populates it.  The source returns object literals; two of
them (release.ts lines 150 and 170) use the property shorthand `msg`
instead of the documented `message` property, so the embedded record keeps
both optional fields to reflect exactly which property each literal sets. -/
structure ExecuteGoalResultM where
  code : Int
  message : Option String
  msg : Option String
  deriving Repr, DecidableEq

/-- Embedding of `RemoteRepoRef` restricted to the members this pack reads:
`owner`, `repo`, `apiBase` and `kind`. -/
structure RemoteRepoRefM where
  owner : String
  repo : String
  apiBase : String
  kind : String
  deriving Repr, DecidableEq

/-- Embedding of `ProjectOperationCredentials`: a JavaScript object that may
or may not carry a `token` property. -/
structure CredentialsM where
  token : Option String
  deriving Repr, DecidableEq

/-- Embedding of automation-client's `isTokenCredentials` type guard: the
credentials object carries a defined `token` property. -/
def isTokenCredentials (c : CredentialsM) : Bool :=
  c.token.isSome

/-- Embedding of the loaded project's identity (`p.id`), used by
`executeRelease` to build the repository slug. -/
structure ProjectIdM where
  owner : String
  repo : String
  deriving Repr, DecidableEq

/-- Embedding of `ReleaseCreatorArguments` (release.ts lines 44-57)
restricted to the data fields; the progress log is pure I/O and the project
handle is passed to the GitHub creator as its `hasFile` capability. -/
structure ReleaseCreatorArgumentsM where
  credentials : CredentialsM
  goalEventSha : String
  id : RemoteRepoRefM
  releaseVersion : String
  deriving Repr, DecidableEq

/-- A `ReleaseCreator` as `executeRelease` consumes it: it either resolves
to an `ExecuteGoalResultM` or rejects with an error message. -/
def ReleaseCreatorM : Type :=
  ReleaseCreatorArgumentsM → Except String ExecuteGoalResultM

/-- Embedding of the parts of a `GoalInvocation` that `executeRelease`
reads: whether `configuration.sdm.projectLoader` is set, the credentials,
the remote repo ref `id`, the triggering event's sha, the identity of the
project the loader yields, and the version `goalInvocationVersion`
resolves for the goal set (`none` embeds `undefined`). -/
structure GoalInvocationM where
  hasProjectLoader : Bool
  credentials : CredentialsM
  id : RemoteRepoRefM
  goalEventSha : String
  projectId : ProjectIdM
  version : Option String
  deriving Repr, DecidableEq

/-- The repository slug `owner/repo` both source files interpolate into
their messages. -/
def repoSlug (owner repo : String) : String :=
  owner ++ "/" ++ repo

/-- Embedding of `releaseResult.message || "release creator failed"`:
a missing or empty message is falsy in JavaScript. -/
def creatorFailureMessage (m : Option String) : String :=
  match m with
  | some s => if s = "" then "release creator failed" else s
  | none => "release creator failed"

/-- Embedding of `executeRelease` (release.ts lines 133-177).  The imported
`releaseLikeVersion` lives in `lib/semver.ts` and is passed in as the
function `rlv`; the configured release creator is the function `creator`.
The `if (!version)` test fires on `undefined` and on the empty string,
both falsy.  The two failure literals `\x7b code: 1, msg \x7d` set the
`msg` property, not `message`, exactly as the source does. -/
def executeRelease (rlv : String → String) (creator : ReleaseCreatorM)
    (gi : GoalInvocationM) : ExecuteGoalResultM :=
  if !gi.hasProjectLoader then
    { code := 1, message := some "Invalid configuration: no projectLoader", msg := none }
  else
    let slug := repoSlug gi.projectId.owner gi.projectId.repo
    let versionIsFalsy := match gi.version with
      | none => true
      | some v => v = ""
    if versionIsFalsy then
      { code := 1, message := none, msg := some "Current goal set does not have a version" }
    else
      let v := gi.version.getD ""
      let releaseVersion := rlv v
      let outcome := creator
        { credentials := gi.credentials
          goalEventSha := gi.goalEventSha
          id := gi.id
          releaseVersion := releaseVersion }
      match outcome with
      | Except.error e =>
        { code := 1, message := none,
          msg := some ("Failed create release for " ++ slug ++ ": " ++ e) }
      | Except.ok r =>
        if r.code ≠ 0 then
          { code := 1, message := none,
            msg := some ("Failed create release for " ++ slug ++ ": " ++
              creatorFailureMessage r.message) }
        else
          { code := 0,
            message := some ("Created release " ++ releaseVersion ++ " for " ++ slug),
            msg := none }

/-- Embedding of the data handed to the external release-creation call
(github.ts lines 44-64): the `Octokit` constructor options `auth`,
`baseUrl`, `userAgent` together with the `octokit.repos.createRelease`
parameters. -/
structure CreateReleaseParamsM where
  auth : Option String
  baseUrl : String
  userAgent : String
  owner : String
  repo : String
  tagName : String
  targetCommitish : String
  name : String
  body : Option String
  prerelease : Bool
  deriving Repr, DecidableEq

/-- The fixed, ordered changelog candidate list of github.ts line 50. -/
def changelogCandidates : List String :=
  ["CHANGELOG.md", "CHANGELOG", "ChangeLog", "Changelog", "changelog"]

/-- Embedding of the `for (const ch of [...])` scan of github.ts lines
49-55: test the candidates in order against `args.project.hasFile`, keep
the first hit; a rejected `hasFile` promise propagates as an error into
the surrounding `try`. -/
def findChangelog (hasFile : String → Except String Bool) :
    List String → Except String (Option String)
  | [] => Except.ok none
  | ch :: rest =>
    match hasFile ch with
    | Except.error e => Except.error e
    | Except.ok true => Except.ok (some ch)
    | Except.ok false => findChangelog hasFile rest

/-- Embedding of `body: (changelog) ? \x60See [CHANGELOG](...)\x60 :
undefined` (github.ts line 62); the empty string is falsy. -/
def changelogBody (changelog : Option String) : Option String :=
  match changelog with
  | some ch => if ch = "" then none else some ("See [CHANGELOG](" ++ ch ++ ") for details.")
  | none => none

/-- The arguments assembled for the release-creation call at github.ts
lines 44-64, given the selected changelog. -/
def createReleaseParams (args : ReleaseCreatorArgumentsM) (changelog : Option String) :
    CreateReleaseParamsM :=
  { auth := args.credentials.token
    baseUrl := args.id.apiBase
    userAgent := "@atomist/sdm-pack-version 0.1.0"
    owner := args.id.owner
    repo := args.id.repo
    tagName := args.releaseVersion
    targetCommitish := args.goalEventSha
    name := "Release " ++ args.releaseVersion
    body := changelogBody changelog
    prerelease := args.releaseVersion.data.contains '-' }

/-- Embedding of `githubReleaseCreator` (github.ts lines 28-74).
The external collaborators are parameters: `ghRef` is automation-client's
`isGitHubRepoRef` recogniser, `createRelease` the remote release-creation
call (which fails by rejecting), `hasFile` the project's file-existence
query.  Besides the returned result, the embedding records the list of
release-creation invocations actually performed, so non-invocation is
provable. -/
def githubReleaseCreator (ghRef : RemoteRepoRefM → Bool)
    (createRelease : CreateReleaseParamsM → Except String Unit)
    (hasFile : String → Except String Bool)
    (args : ReleaseCreatorArgumentsM) :
    ExecuteGoalResultM × List CreateReleaseParamsM :=
  let slug := repoSlug args.id.owner args.id.repo
  if !ghRef args.id then
    ({ code := 0,
       message := some ("Project " ++ slug ++ " is neither a GitHub.com nor GHE remote repository"),
       msg := none }, [])
  else if !isTokenCredentials args.credentials then
    ({ code := 0,
       message := some ("Project " ++ slug ++ " credentials are not TokenCredentials"),
       msg := none }, [])
  else
    match findChangelog hasFile changelogCandidates with
    | Except.error e =>
      ({ code := 1,
         message := some ("Failed to create release " ++ args.releaseVersion ++
           " for project " ++ slug ++ ": " ++ e),
         msg := none }, [])
    | Except.ok changelog =>
      let params := createReleaseParams args changelog
      match createRelease params with
      | Except.ok _ =>
        ({ code := 0,
           message := some ("Created release " ++ args.releaseVersion ++ " for " ++ slug),
           msg := none }, [params])
      | Except.error e =>
        ({ code := 1,
           message := some ("Failed to create release " ++ args.releaseVersion ++
             " for project " ++ slug ++ ": " ++ e),
           msg := none }, [params])

/-! Embedding of the push test `IsReleaseCommit` (release.ts lines
183-191).  Both regular expressions have the shape
literal, `.*`, literal (the second with an empty trailing literal), are
unanchored, and carry the `i` flag.  Commit messages are embedded as
`List Char`; matching folds each subject character with `Char.toLower`
against pattern literals stored in lower case.  JavaScript `.` matches
every character except the line terminators LF, CR, U+2028 and U+2029. -/

/-- Character class of JavaScript `.` (no `s` flag): everything but a
line terminator. -/
def dotCh (c : Char) : Bool :=
  !(c == '\n' || c == '\r' || c == '\u2028' || c == '\u2029')

/-- Does the subject start with the given lower-case pattern literal,
comparing case-insensitively? -/
def litAt : List Char → List Char → Bool
  | [], _ => true
  | _ :: _, [] => false
  | p :: ps, c :: cs => (c.toLower == p) && litAt ps cs

/-- Match `.*` followed by the literal `q` against a whole subject
position set: true iff some split consumes dot-characters then `q`. -/
def dotStarLit (q : List Char) : List Char → Bool
  | [] => litAt q []
  | c :: cs => litAt q (c :: cs) || (dotCh c && dotStarLit q cs)

/-- Unanchored test of the pattern `p.*q` (literals `p`, `q` around `.*`)
against a subject, the shape of both `IsReleaseCommit` regexes. -/
def reTest (p q : List Char) : List Char → Bool
  | [] => litAt p [] && dotStarLit q []
  | c :: cs => (litAt p (c :: cs) && dotStarLit q (List.drop p.length (c :: cs))) || reTest p q cs

/-- Lower-cased literal part of `/Version: increment after .* release/i`
before the `.*`. -/
def vLit1 : List Char := "version: increment after ".data

/-- Lower-cased literal part of `/Version: increment after .* release/i`
after the `.*`. -/
def vLit2 : List Char := " release".data

/-- Lower-cased literal of `/Changelog: add release .*/i`; its trailing
`.*` matches the empty string, so no second literal remains. -/
def cLit : List Char := "changelog: add release ".data

/-- Embedding of `(pi.push.after && pi.push.after.message) ?
pi.push.after.message : ""` (release.ts line 188): the outer `Option` is
the presence of `push.after`, the inner one of its `message`; an empty
message is falsy and also yields the empty string. -/
def commitMessageOf (after : Option (Option (List Char))) : List Char :=
  match after with
  | some (some m) => if m.isEmpty then [] else m
  | _ => []

/-- Embedding of the `IsReleaseCommit` push test mapping (release.ts lines
183-191): the resolved commit message is tested against the two regexes. -/
def IsReleaseCommit (after : Option (Option (List Char))) : Bool :=
  reTest vLit1 vLit2 (commitMessageOf after) || reTest cLit [] (commitMessageOf after)

/-- Declarative reading of `/Version: increment after .* release/i`
matching somewhere in `s`: some slice spells the first literal
case-insensitively, then dot-characters, then the second literal. -/
def VersionCommitMatch (s : List Char) : Prop :=
  ∃ pre x mid y post, s = pre ++ x ++ mid ++ y ++ post ∧
    x.map Char.toLower = vLit1 ∧ mid.all dotCh = true ∧ y.map Char.toLower = vLit2

/-- Declarative reading of `/Changelog: add release .*/i` matching
somewhere in `s`: some slice spells the literal case-insensitively (the
trailing `.*` matches the empty string). -/
def ChangelogCommitMatch (s : List Char) : Prop :=
  ∃ pre x post, s = pre ++ x ++ post ∧ x.map Char.toLower = cLit

/-! Embedding of the `Release` goal's registration state (release.ts lines
96-119).  The inherited `FulfillableGoal` keeps lists of fulfillments and
of fulfillment callbacks; `with` appends a fulfillment built from a
registration; the startup listener installs a default no-op creator when
both lists are still empty. -/

/-- A registered fulfillment: the generated or supplied name together with
the release creator the goal executor wraps. -/
structure FulfillmentM where
  name : String
  releaseCreator : ReleaseCreatorM

/-- Registration state of one `Release` goal instance: its fulfillments
and its fulfillment callbacks (whose payload is irrelevant here). -/
structure ReleaseGoalStateM where
  fulfillments : List FulfillmentM
  callbacks : List Unit

/-- The default no-op release creator installed by the startup listener
(release.ts line 103). -/
def defaultNoopReleaseCreator : ReleaseCreatorM :=
  fun _ => Except.ok { code := 0, message := some "Release goal executed", msg := none }

/-- Embedding of `Release.with` / `addFulfillment`: append the fulfillment
to the goal's list. -/
def withRegistration (st : ReleaseGoalStateM) (f : FulfillmentM) : ReleaseGoalStateM :=
  { st with fulfillments := st.fulfillments ++ [f] }

/-- Embedding of the startup listener added by `Release.register`
(release.ts lines 99-106): when no fulfillment and no callback have been
attached, install the default no-op fulfillment under the generated name
`genName`; otherwise leave the state alone. -/
def startupListener (genName : String) (st : ReleaseGoalStateM) : ReleaseGoalStateM :=
  if st.fulfillments.length = 0 ∧ st.callbacks.length = 0 then
    withRegistration st { name := genName, releaseCreator := defaultNoopReleaseCreator }
  else st

/-! Concrete fixtures used by the closed evaluation theorems and by the
witnesses, taken from the repository's own test scenarios. -/

/-- Test-scenario repository reference. -/
def sampleRepoRef : RemoteRepoRefM :=
  { owner := "KendrickLamar", repo := "DAMN.", apiBase := "https://api.github.com", kind := "github" }

/-- Test-scenario loaded-project identity. -/
def sampleProjectId : ProjectIdM :=
  { owner := "KendrickLamar", repo := "DAMN." }

/-- Test-scenario token credentials. -/
def sampleTokenCreds : CredentialsM := { token := some "XXX" }

/-- Test-scenario release-creator arguments. -/
def sampleArgs : ReleaseCreatorArgumentsM :=
  { credentials := sampleTokenCreds
    goalEventSha := "4455434b574f5254482e"
    id := sampleRepoRef
    releaseVersion := "2.0.17" }

/-- A concrete instantiation of the `isGitHubRepoRef` recogniser used in
witnesses: accept exactly the repo refs of kind `github`. -/
def ghKindRef : RemoteRepoRefM → Bool := fun rr => rr.kind = "github"

/-- Goal invocation fixture with a resolved goal-set version. -/
def sampleInvocation : GoalInvocationM :=
  { hasProjectLoader := true
    credentials := sampleTokenCreds
    id := sampleRepoRef
    goalEventSha := "4455434b574f5254482e"
    projectId := sampleProjectId
    version := some "2.0.17" }

/-! Theorems settling the claims. -/

/-- C1: when the goal set has no resolved version, `executeRelease` does
return status code 1, but the explanatory text is placed under the
shorthand property `msg`, so the result's `message` component is
undefined — the claimed message field does not state anything.  Evaluated
at a concrete invocation whose version is absent. -/
theorem C1_missing_version_message_bug :
    executeRelease id (fun _ => Except.ok { code := 0, message := some "ok", msg := none })
      { sampleInvocation with version := none } =
      { code := 1, message := none, msg := some "Current goal set does not have a version" } := by
  rfl

/-- C2: when the configured release action reports a non-zero status or
rejects, `executeRelease` returns status code 1 and does not propagate the
error, but the text embedding the action's message is placed under the
shorthand property `msg`, leaving the result's `message` component
undefined.  Evaluated at a concrete invocation for both failure modes. -/
theorem C2_creator_failure_message_bug :
    executeRelease id (fun _ => Except.ok { code := 1, message := some "boom", msg := none })
      sampleInvocation =
      { code := 1, message := none,
        msg := some "Failed create release for KendrickLamar/DAMN.: boom" } ∧
    executeRelease id (fun _ => Except.error "kaboom") sampleInvocation =
      { code := 1, message := none,
        msg := some "Failed create release for KendrickLamar/DAMN.: kaboom" } := by
  exact ⟨rfl, rfl⟩

/-- Helper: with both guards passed, `githubReleaseCreator` is determined
by the changelog scan and the release-creation call. -/
theorem githubReleaseCreator_after_guards (ghRef : RemoteRepoRefM → Bool)
    (cr : CreateReleaseParamsM → Except String Unit)
    (hf : String → Except String Bool) (args : ReleaseCreatorArgumentsM)
    (h1 : ghRef args.id = true) (h2 : isTokenCredentials args.credentials = true) :
    githubReleaseCreator ghRef cr hf args =
      match findChangelog hf changelogCandidates with
      | Except.error e =>
        ({ code := 1,
           message := some ("Failed to create release " ++ args.releaseVersion ++
             " for project " ++ repoSlug args.id.owner args.id.repo ++ ": " ++ e),
           msg := none }, [])
      | Except.ok changelog =>
        match cr (createReleaseParams args changelog) with
        | Except.ok _ =>
          ({ code := 0,
             message := some ("Created release " ++ args.releaseVersion ++ " for " ++
               repoSlug args.id.owner args.id.repo),
             msg := none }, [createReleaseParams args changelog])
        | Except.error e =>
          ({ code := 1,
             message := some ("Failed to create release " ++ args.releaseVersion ++
               " for project " ++ repoSlug args.id.owner args.id.repo ++ ": " ++ e),
             msg := none }, [createReleaseParams args changelog]) := by
  simp [githubReleaseCreator, h1, h2]

/-- C3: a repository reference the GitHub recogniser rejects makes
`githubReleaseCreator` return status 0 with the "neither a GitHub.com nor
GHE remote repository" message and perform no release-creation call; a
recognised reference with credentials lacking a token likewise yields
status 0 with the "credentials are not TokenCredentials" message and no
call. -/
theorem C3_guard_skips :
    (∀ (ghRef : RemoteRepoRefM → Bool) (cr : CreateReleaseParamsM → Except String Unit)
      (hf : String → Except String Bool) (args : ReleaseCreatorArgumentsM),
      ghRef args.id = false →
      githubReleaseCreator ghRef cr hf args =
        ({ code := 0,
           message := some ("Project " ++ repoSlug args.id.owner args.id.repo ++
             " is neither a GitHub.com nor GHE remote repository"),
           msg := none }, [])) ∧
    (∀ (ghRef : RemoteRepoRefM → Bool) (cr : CreateReleaseParamsM → Except String Unit)
      (hf : String → Except String Bool) (args : ReleaseCreatorArgumentsM),
      ghRef args.id = true → isTokenCredentials args.credentials = false →
      githubReleaseCreator ghRef cr hf args =
        ({ code := 0,
           message := some ("Project " ++ repoSlug args.id.owner args.id.repo ++
             " credentials are not TokenCredentials"),
           msg := none }, [])) := by
  constructor
  · intro ghRef cr hf args h
    simp [githubReleaseCreator, h]
  · intro ghRef cr hf args h1 h2
    simp [githubReleaseCreator, h1, h2]

/-- C3 witness: the spec's bitbucketserver scenario, evaluated, and the
empty-credentials scenario, evaluated. -/
theorem C3_guard_skips_witness :
    githubReleaseCreator ghKindRef (fun _ => Except.ok ()) (fun _ => Except.ok false)
      { sampleArgs with id := { sampleRepoRef with kind := "bitbucketserver" } } =
      ({ code := 0,
         message := some "Project KendrickLamar/DAMN. is neither a GitHub.com nor GHE remote repository",
         msg := none }, []) ∧
    githubReleaseCreator ghKindRef (fun _ => Except.ok ()) (fun _ => Except.ok false)
      { sampleArgs with credentials := { token := none } } =
      ({ code := 0,
         message := some "Project KendrickLamar/DAMN. credentials are not TokenCredentials",
         msg := none }, []) := by
  constructor
  · exact (C3_guard_skips.1 _ _ _ _ (by decide)).trans (by decide)
  · exact (C3_guard_skips.2 _ _ _ _ (by decide) (by decide)).trans (by decide)

/-- C5: `githubReleaseCreator` never escapes as an exception — every input
yields a result whose code is 0 or 1, with a defined `message` — and when
the changelog scan or the release-creation call rejects, the result is
status 1 with the message embedding the version, the slug and the error
text. -/
theorem C5_never_throws :
    (∀ (ghRef : RemoteRepoRefM → Bool) (cr : CreateReleaseParamsM → Except String Unit)
      (hf : String → Except String Bool) (args : ReleaseCreatorArgumentsM),
      ((githubReleaseCreator ghRef cr hf args).1.code = 0 ∨
        (githubReleaseCreator ghRef cr hf args).1.code = 1) ∧
      (githubReleaseCreator ghRef cr hf args).1.message.isSome = true ∧
      (githubReleaseCreator ghRef cr hf args).1.msg = none) ∧
    (∀ (ghRef : RemoteRepoRefM → Bool) (cr : CreateReleaseParamsM → Except String Unit)
      (hf : String → Except String Bool) (args : ReleaseCreatorArgumentsM) (e : String),
      ghRef args.id = true → isTokenCredentials args.credentials = true →
      findChangelog hf changelogCandidates = Except.error e →
      (githubReleaseCreator ghRef cr hf args).1 =
        { code := 1,
          message := some ("Failed to create release " ++ args.releaseVersion ++
            " for project " ++ repoSlug args.id.owner args.id.repo ++ ": " ++ e),
          msg := none }) ∧
    (∀ (ghRef : RemoteRepoRefM → Bool) (cr : CreateReleaseParamsM → Except String Unit)
      (hf : String → Except String Bool) (args : ReleaseCreatorArgumentsM)
      (changelog : Option String) (e : String),
      ghRef args.id = true → isTokenCredentials args.credentials = true →
      findChangelog hf changelogCandidates = Except.ok changelog →
      cr (createReleaseParams args changelog) = Except.error e →
      (githubReleaseCreator ghRef cr hf args).1 =
        { code := 1,
          message := some ("Failed to create release " ++ args.releaseVersion ++
            " for project " ++ repoSlug args.id.owner args.id.repo ++ ": " ++ e),
          msg := none }) := by
  refine ⟨?_, ?_, ?_⟩
  · intro ghRef cr hf args
    by_cases h1 : ghRef args.id = true
    · by_cases h2 : isTokenCredentials args.credentials = true
      · rw [githubReleaseCreator_after_guards ghRef cr hf args h1 h2]
        cases hscan : findChangelog hf changelogCandidates with
        | error e => simp
        | ok changelog =>
          cases hcr : cr (createReleaseParams args changelog) with
          | ok u => simp [hcr]
          | error e => simp [hcr]
      · simp [githubReleaseCreator, h1, Bool.eq_false_iff.mpr h2]
    · simp [githubReleaseCreator, Bool.eq_false_iff.mpr h1]
  · intro ghRef cr hf args e h1 h2 hscan
    rw [githubReleaseCreator_after_guards ghRef cr hf args h1 h2, hscan]
  · intro ghRef cr hf args changelog e h1 h2 hscan hcr
    rw [githubReleaseCreator_after_guards ghRef cr hf args h1 h2]
    simp [hscan, hcr]

/-- C5 witness: at a concrete GitHub-shaped, token-credentialed input the
shape property holds, and with a rejecting `hasFile` respectively a
rejecting release-creation call the two failure results are obtained. -/
theorem C5_never_throws_witness :
    ((githubReleaseCreator ghKindRef (fun _ => Except.ok ()) (fun _ => Except.ok false)
        sampleArgs).1.code = 0 ∨
      (githubReleaseCreator ghKindRef (fun _ => Except.ok ()) (fun _ => Except.ok false)
        sampleArgs).1.code = 1) ∧
    (githubReleaseCreator ghKindRef (fun _ => Except.ok ()) (fun _ => Except.error "scan boom")
        sampleArgs).1 =
      { code := 1,
        message := some "Failed to create release 2.0.17 for project KendrickLamar/DAMN.: scan boom",
        msg := none } ∧
    (githubReleaseCreator ghKindRef (fun _ => Except.error "api boom") (fun _ => Except.ok false)
        sampleArgs).1 =
      { code := 1,
        message := some "Failed to create release 2.0.17 for project KendrickLamar/DAMN.: api boom",
        msg := none } := by
  refine ⟨(C5_never_throws.1 ghKindRef (fun _ => Except.ok ()) (fun _ => Except.ok false) sampleArgs).1, ?_, ?_⟩
  · exact (C5_never_throws.2.1 ghKindRef (fun _ => Except.ok ())
      (fun _ => Except.error "scan boom") sampleArgs "scan boom"
      (by decide) (by decide) rfl).trans (by decide)
  · exact (C5_never_throws.2.2 ghKindRef (fun _ => Except.error "api boom")
      (fun _ => Except.ok false) sampleArgs none "api boom"
      (by decide) (by decide) rfl rfl).trans (by decide)

/-- C6: every release-creation call actually performed by a GitHub-shaped,
token-credentialed invocation of `githubReleaseCreator` receives the
token, API base URL, owner, repo, version-as-tag and target commit sha of
the input arguments unchanged, and its prerelease flag is set exactly when
the version string contains a hyphen. -/
theorem C6_call_parameters :
    ∀ (ghRef : RemoteRepoRefM → Bool) (cr : CreateReleaseParamsM → Except String Unit)
      (hf : String → Except String Bool) (args : ReleaseCreatorArgumentsM)
      (p : CreateReleaseParamsM),
      ghRef args.id = true → isTokenCredentials args.credentials = true →
      p ∈ (githubReleaseCreator ghRef cr hf args).2 →
      p.auth = args.credentials.token ∧ p.baseUrl = args.id.apiBase ∧
      p.owner = args.id.owner ∧ p.repo = args.id.repo ∧
      p.tagName = args.releaseVersion ∧ p.targetCommitish = args.goalEventSha ∧
      (p.prerelease = true ↔ '-' ∈ args.releaseVersion.data) := by
  intro ghRef cr hf args p h1 h2 hmem
  rw [githubReleaseCreator_after_guards ghRef cr hf args h1 h2] at hmem
  have hp : ∃ changelog, p = createReleaseParams args changelog := by
    cases hscan : findChangelog hf changelogCandidates with
    | error e => rw [hscan] at hmem; simp at hmem
    | ok changelog =>
      rw [hscan] at hmem
      cases hcr : cr (createReleaseParams args changelog) with
      | ok u => simp [hcr] at hmem; exact ⟨changelog, hmem⟩
      | error e => simp [hcr] at hmem; exact ⟨changelog, hmem⟩
  obtain ⟨changelog, rfl⟩ := hp
  refine ⟨rfl, rfl, rfl, rfl, rfl, rfl, ?_⟩
  simp [createReleaseParams, List.contains, List.elem_iff]

/-- C6 witness: a concrete successful invocation whose single recorded
call carries exactly the fixture's token, base URL, owner, repo, version
and sha, with the hyphenless version giving a false prerelease flag. -/
theorem C6_call_parameters_witness :
    (createReleaseParams sampleArgs none).auth = sampleArgs.credentials.token ∧
    (createReleaseParams sampleArgs none).baseUrl = sampleArgs.id.apiBase ∧
    (createReleaseParams sampleArgs none).owner = sampleArgs.id.owner ∧
    (createReleaseParams sampleArgs none).repo = sampleArgs.id.repo ∧
    (createReleaseParams sampleArgs none).tagName = sampleArgs.releaseVersion ∧
    (createReleaseParams sampleArgs none).targetCommitish = sampleArgs.goalEventSha ∧
    ((createReleaseParams sampleArgs none).prerelease = true ↔
      '-' ∈ sampleArgs.releaseVersion.data) :=
  C6_call_parameters ghKindRef (fun _ => Except.ok ()) (fun _ => Except.ok false)
    sampleArgs (createReleaseParams sampleArgs none) (by decide) (by decide)
    (by rw [githubReleaseCreator_after_guards ghKindRef _ _ sampleArgs (by decide) (by decide)]
        exact List.mem_singleton.mpr rfl)

/-- Helper: over a non-throwing file query, the changelog scan returns the
first candidate the predicate accepts, in list order. -/
theorem findChangelog_pure (present : String → Bool) (l : List String) :
    findChangelog (fun f => Except.ok (present f)) l = Except.ok (l.find? present) := by
  induction l with
  | nil => rfl
  | cons ch rest ih =>
    by_cases h : present ch
    · simp [findChangelog, h, List.find?]
    · simp only [findChangelog, List.find?]
      rw [Bool.eq_false_iff.mpr h]
      simpa using ih

/-- C4: over a non-throwing project, `githubReleaseCreator` selects as
changelog the first of `CHANGELOG.md`, `CHANGELOG`, `ChangeLog`,
`Changelog`, `changelog` that is present (in that order), every performed
release-creation call's body is derived from exactly that selection, a
project containing `CHANGELOG.md` yields the `CHANGELOG.md` body, and a
project containing none of the candidates yields an undefined body. -/
theorem C4_changelog_scan :
    ∀ (ghRef : RemoteRepoRefM → Bool) (cr : CreateReleaseParamsM → Except String Unit)
      (present : String → Bool) (args : ReleaseCreatorArgumentsM),
      ghRef args.id = true → isTokenCredentials args.credentials = true →
      (findChangelog (fun f => Except.ok (present f)) changelogCandidates =
        Except.ok (changelogCandidates.find? present)) ∧
      (∀ p ∈ (githubReleaseCreator ghRef cr (fun f => Except.ok (present f)) args).2,
        p.body = changelogBody (changelogCandidates.find? present)) ∧
      (present "CHANGELOG.md" = true →
        ∀ p ∈ (githubReleaseCreator ghRef cr (fun f => Except.ok (present f)) args).2,
        p.body = some "See [CHANGELOG](CHANGELOG.md) for details.") ∧
      ((∀ c ∈ changelogCandidates, present c = false) →
        ∀ p ∈ (githubReleaseCreator ghRef cr (fun f => Except.ok (present f)) args).2,
        p.body = none) := by
  intro ghRef cr present args h1 h2
  have hbody : ∀ p ∈ (githubReleaseCreator ghRef cr (fun f => Except.ok (present f)) args).2,
      p.body = changelogBody (changelogCandidates.find? present) := by
    intro p hmem
    rw [githubReleaseCreator_after_guards ghRef cr _ args h1 h2,
      findChangelog_pure present changelogCandidates] at hmem
    cases hcr : cr (createReleaseParams args (changelogCandidates.find? present)) with
    | ok u =>
      simp [hcr] at hmem
      rw [hmem]
      rfl
    | error e =>
      simp [hcr] at hmem
      rw [hmem]
      rfl
  refine ⟨findChangelog_pure present changelogCandidates, hbody, ?_, ?_⟩
  · intro hmd p hmem
    rw [hbody p hmem]
    simp [changelogCandidates, List.find?, hmd, changelogBody]
  · intro habsent p hmem
    rw [hbody p hmem]
    have : changelogCandidates.find? present = none := by
      rw [List.find?_eq_none]
      intro x hx
      simp [habsent x hx]
    rw [this]
    rfl

/-- C4 witness: with only `CHANGELOG.md` present the performed call's body
references `CHANGELOG.md`, and with no candidate present the body is
undefined. -/
theorem C4_changelog_scan_witness :
    (∀ p ∈ (githubReleaseCreator ghKindRef (fun _ => Except.ok ())
        (fun f => Except.ok (f = "CHANGELOG.md")) sampleArgs).2,
      p.body = some "See [CHANGELOG](CHANGELOG.md) for details.") ∧
    (∀ p ∈ (githubReleaseCreator ghKindRef (fun _ => Except.ok ())
        (fun _ => Except.ok (decide False)) sampleArgs).2,
      p.body = none) := by
  constructor
  · exact (C4_changelog_scan ghKindRef (fun _ => Except.ok ())
      (fun f => f = "CHANGELOG.md") sampleArgs (by decide) (by decide)).2.2.1 (by decide)
  · exact (C4_changelog_scan ghKindRef (fun _ => Except.ok ())
      (fun _ => decide False) sampleArgs (by decide) (by decide)).2.2.2 (by decide)

/-- C7: on the success path — project loader configured, a version
resolved for the goal set, release action resolving with code 0 —
`executeRelease` returns status 0 with message
`Created release <releaseVersion> for <owner>/<repo>`; and
`githubReleaseCreator`, when the release-creation call succeeds, returns
status 0 with message `Created release <version> for <owner>/<repo>`. -/
theorem C7_success_messages :
    (∀ (rlv : String → String) (creator : ReleaseCreatorM) (gi : GoalInvocationM)
      (v : String) (r : ExecuteGoalResultM),
      gi.hasProjectLoader = true → gi.version = some v → v ≠ "" →
      creator { credentials := gi.credentials, goalEventSha := gi.goalEventSha,
                id := gi.id, releaseVersion := rlv v } = Except.ok r →
      r.code = 0 →
      executeRelease rlv creator gi =
        { code := 0,
          message := some ("Created release " ++ rlv v ++ " for " ++
            repoSlug gi.projectId.owner gi.projectId.repo),
          msg := none }) ∧
    (∀ (ghRef : RemoteRepoRefM → Bool) (cr : CreateReleaseParamsM → Except String Unit)
      (hf : String → Except String Bool) (args : ReleaseCreatorArgumentsM)
      (changelog : Option String),
      ghRef args.id = true → isTokenCredentials args.credentials = true →
      findChangelog hf changelogCandidates = Except.ok changelog →
      cr (createReleaseParams args changelog) = Except.ok () →
      (githubReleaseCreator ghRef cr hf args).1 =
        { code := 0,
          message := some ("Created release " ++ args.releaseVersion ++ " for " ++
            repoSlug args.id.owner args.id.repo),
          msg := none }) := by
  constructor
  · intro rlv creator gi v r hpl hv hne hcr hcode
    simp only [executeRelease, hpl, hv, Bool.not_true, Bool.false_eq_true, if_false]
    rw [if_neg (by simpa using hne)]
    simp only [Option.getD_some, hcr]
    rw [if_neg (by simp [hcode])]
  · intro ghRef cr hf args changelog h1 h2 hscan hcr
    rw [githubReleaseCreator_after_guards ghRef cr hf args h1 h2]
    simp [hscan, hcr]

/-- C7 witness: the spec's success scenario — GitHub identity, token
credentials, no changelog file, sha `4455434b574f5254482e`, version
`2.0.17` — evaluated through both functions. -/
theorem C7_success_messages_witness :
    executeRelease id (fun _ => Except.ok { code := 0, message := some "done", msg := none })
      sampleInvocation =
      { code := 0, message := some "Created release 2.0.17 for KendrickLamar/DAMN.",
        msg := none } ∧
    (githubReleaseCreator ghKindRef (fun _ => Except.ok ()) (fun _ => Except.ok false)
        sampleArgs).1 =
      { code := 0, message := some "Created release 2.0.17 for KendrickLamar/DAMN.",
        msg := none } := by
  constructor
  · exact (C7_success_messages.1 id
      (fun _ => Except.ok { code := 0, message := some "done", msg := none })
      sampleInvocation "2.0.17" { code := 0, message := some "done", msg := none }
      rfl rfl (by decide) rfl rfl).trans (by decide)
  · exact (C7_success_messages.2 ghKindRef (fun _ => Except.ok ()) (fun _ => Except.ok false)
      sampleArgs none (by decide) (by decide) rfl rfl).trans (by decide)

/-- C9 counterexample: a goal with a fulfillment callback attached but no
concrete Release Action (empty fulfillment list) gets no default installed
at startup — its fulfillment list stays empty — because release.ts line
100 also requires the callback list to be empty, so the claim's "if no
concrete Release Action has been attached, a default is installed" is
false at this input. -/
theorem C9_callback_counterexample :
    (startupListener "noop-release#0"
      { fulfillments := [], callbacks := [()] }).fulfillments = [] := by
  rfl

/-- C9 amended: the startup listener's default action returns status 0
with the fixed message `Release goal executed` for every input; with no
fulfillment and no fulfillment callback attached it installs exactly one
fulfillment carrying that action; and once a fulfillment or a fulfillment
callback is attached it installs nothing. -/
theorem C9_default_noop :
    (∀ args : ReleaseCreatorArgumentsM,
      defaultNoopReleaseCreator args =
        Except.ok { code := 0, message := some "Release goal executed", msg := none }) ∧
    (∀ (genName : String) (st : ReleaseGoalStateM),
      st.fulfillments = [] → st.callbacks = [] →
      startupListener genName st =
        { st with fulfillments := [⟨genName, defaultNoopReleaseCreator⟩] }) ∧
    (∀ (genName : String) (st : ReleaseGoalStateM),
      st.fulfillments ≠ [] ∨ st.callbacks ≠ [] → startupListener genName st = st) := by
  refine ⟨fun _ => rfl, ?_, ?_⟩
  · intro genName st hf hc
    simp [startupListener, hf, hc, withRegistration]
  · intro genName st h
    rcases h with hf | hc
    · have : st.fulfillments.length ≠ 0 := by
        simpa [List.length_eq_zero] using hf
      simp [startupListener, this]
    · have : st.callbacks.length ≠ 0 := by
        simpa [List.length_eq_zero] using hc
      simp [startupListener, this]

/-- C9 witness: the default action evaluated at the fixture arguments, the
empty state gaining exactly the default fulfillment, a configured state
left unchanged, and a callback-only state left unchanged. -/
theorem C9_default_noop_witness :
    defaultNoopReleaseCreator sampleArgs =
      Except.ok { code := 0, message := some "Release goal executed", msg := none } ∧
    startupListener "noop-release#0" { fulfillments := [], callbacks := [] } =
      { fulfillments := [⟨"noop-release#0", defaultNoopReleaseCreator⟩], callbacks := [] } ∧
    startupListener "noop-release#0"
        { fulfillments := [⟨"gh", defaultNoopReleaseCreator⟩], callbacks := [] } =
      { fulfillments := [⟨"gh", defaultNoopReleaseCreator⟩], callbacks := [] } ∧
    startupListener "noop-release#0" { fulfillments := [], callbacks := [()] } =
      { fulfillments := [], callbacks := [()] } := by
  refine ⟨C9_default_noop.1 sampleArgs, ?_, ?_, ?_⟩
  · exact C9_default_noop.2.1 "noop-release#0" { fulfillments := [], callbacks := [] } rfl rfl
  · exact C9_default_noop.2.2 "noop-release#0"
      { fulfillments := [⟨"gh", defaultNoopReleaseCreator⟩], callbacks := [] }
      (Or.inl (by simp))
  · exact C9_default_noop.2.2 "noop-release#0"
      { fulfillments := [], callbacks := [()] } (Or.inr (by simp))

/-! Correctness of the literal-dotstar-literal matcher against its
declarative reading, used to settle the push-classifier claims. -/

/-- A literal matches at the front of the subject exactly when some front
slice spells it in lower case. -/
theorem litAt_iff (p : List Char) :
    ∀ s, litAt p s = true ↔ ∃ x r, s = x ++ r ∧ x.map Char.toLower = p := by
  induction p with
  | nil =>
    intro s
    simp only [litAt]
    constructor
    · intro _
      exact ⟨[], s, rfl, rfl⟩
    · intro _
      trivial
  | cons p0 ps ih =>
    intro s
    cases s with
    | nil =>
      simp only [litAt]
      constructor
      · intro h
        exact absurd h (by simp)
      · rintro ⟨x, r, heq, hmap⟩
        rcases List.append_eq_nil.mp heq.symm with ⟨hx, -⟩
        subst hx
        simp at hmap
    | cons c cs =>
      simp only [litAt, Bool.and_eq_true, beq_iff_eq]
      constructor
      · rintro ⟨hc, hrest⟩
        obtain ⟨x, r, heq, hmap⟩ := (ih cs).mp hrest
        exact ⟨c :: x, r, by simp [heq], by simp [hmap, hc]⟩
      · rintro ⟨x, r, heq, hmap⟩
        cases x with
        | nil => simp at hmap
        | cons a xs =>
          simp only [List.cons_append, List.cons.injEq] at heq
          obtain ⟨rfl, hcs⟩ := heq
          simp only [List.map_cons, List.cons.injEq] at hmap
          obtain ⟨hc, hxs⟩ := hmap
          exact ⟨hc, (ih cs).mpr ⟨xs, r, hcs, hxs⟩⟩

/-- Dropping the length of the first summand of an append returns the
second summand. -/
theorem drop_len_append (x r : List Char) : (x ++ r).drop x.length = r := by
  induction x with
  | nil => rfl
  | cons a xs ih => simp [ih]

/-- `.*` followed by a literal matches the subject exactly when the
subject splits into dot-characters, a slice spelling the literal in lower
case, and an arbitrary rest. -/
theorem dotStarLit_iff (q : List Char) :
    ∀ s, dotStarLit q s = true ↔
      ∃ mid y post, s = mid ++ y ++ post ∧ mid.all dotCh = true ∧
        y.map Char.toLower = q := by
  intro s
  induction s with
  | nil =>
    simp only [dotStarLit, litAt_iff]
    constructor
    · rintro ⟨x, r, heq, hmap⟩
      rw [eq_comm, List.append_eq_nil] at heq
      obtain ⟨hx, hr⟩ := heq
      subst hx
      subst hr
      exact ⟨[], [], [], rfl, rfl, hmap⟩
    · rintro ⟨mid, y, post, heq, hall, hmap⟩
      rw [eq_comm, List.append_eq_nil, List.append_eq_nil] at heq
      obtain ⟨⟨hmid, hy⟩, hpost⟩ := heq
      subst hy
      exact ⟨[], [], rfl, hmap⟩
  | cons c cs ih =>
    simp only [dotStarLit, Bool.or_eq_true, Bool.and_eq_true]
    constructor
    · rintro (hlit | ⟨hdot, hrest⟩)
      · obtain ⟨x, r, heq, hmap⟩ := (litAt_iff q _).mp hlit
        exact ⟨[], x, r, by simp [heq], rfl, hmap⟩
      · obtain ⟨mid, y, post, heq, hall, hmap⟩ := ih.mp hrest
        exact ⟨c :: mid, y, post, by simp [heq], by simp [hdot, hall], hmap⟩
    · rintro ⟨mid, y, post, heq, hall, hmap⟩
      cases mid with
      | nil =>
        left
        exact (litAt_iff q _).mpr ⟨y, post, by simpa using heq, hmap⟩
      | cons m ms =>
        right
        simp only [List.cons_append, List.cons.injEq] at heq
        obtain ⟨rfl, hcs⟩ := heq
        simp only [List.all_cons, Bool.and_eq_true] at hall
        exact ⟨hall.1, ih.mpr ⟨ms, y, post, hcs, hall.2, hmap⟩⟩

/-- The unanchored literal-dotstar-literal test succeeds exactly when the
subject contains, in order, a slice spelling the first literal in lower
case, a run of dot-characters, and a slice spelling the second literal in
lower case. -/
theorem reTest_iff (p q : List Char) :
    ∀ s, reTest p q s = true ↔
      ∃ pre x mid y post, s = pre ++ x ++ mid ++ y ++ post ∧
        x.map Char.toLower = p ∧ mid.all dotCh = true ∧
        y.map Char.toLower = q := by
  intro s
  induction s with
  | nil =>
    simp only [reTest, Bool.and_eq_true, litAt_iff, dotStarLit_iff]
    constructor
    · rintro ⟨⟨x, r, heq, hmap⟩, ⟨mid, y, post, heq2, hall, hmap2⟩⟩
      rw [eq_comm, List.append_eq_nil] at heq
      obtain ⟨hx, hr⟩ := heq
      rw [eq_comm, List.append_eq_nil, List.append_eq_nil] at heq2
      obtain ⟨⟨hmid, hy⟩, hpost⟩ := heq2
      subst hx
      subst hmid
      subst hy
      subst hpost
      exact ⟨[], [], [], [], [], rfl, hmap, rfl, hmap2⟩
    · rintro ⟨pre, x, mid, y, post, heq, hmap, hall, hmap2⟩
      rw [eq_comm, List.append_eq_nil, List.append_eq_nil, List.append_eq_nil,
        List.append_eq_nil] at heq
      obtain ⟨⟨⟨⟨hpre, hx⟩, hmid⟩, hy⟩, hpost⟩ := heq
      subst hx
      subst hmid
      subst hy
      exact ⟨⟨[], [], rfl, hmap⟩, [], [], [], rfl, rfl, hmap2⟩
  | cons c cs ih =>
    simp only [reTest, Bool.or_eq_true, Bool.and_eq_true]
    constructor
    · rintro (⟨hlit, hstar⟩ | hrec)
      · obtain ⟨x, r, heq, hmap⟩ := (litAt_iff p _).mp hlit
        have hlen : x.length = p.length := by
          rw [← hmap, List.length_map]
        have hdrop : List.drop p.length (c :: cs) = r := by
          rw [heq, ← hlen, drop_len_append]
        rw [hdrop] at hstar
        obtain ⟨mid, y, post, heq2, hall, hmap2⟩ := (dotStarLit_iff q r).mp hstar
        refine ⟨[], x, mid, y, post, ?_, hmap, hall, hmap2⟩
        simp [heq, heq2]
      · obtain ⟨pre, x, mid, y, post, heq, hmap, hall, hmap2⟩ := ih.mp hrec
        exact ⟨c :: pre, x, mid, y, post, by simp [heq], hmap, hall, hmap2⟩
    · rintro ⟨pre, x, mid, y, post, heq, hmap, hall, hmap2⟩
      cases pre with
      | nil =>
        left
        simp only [List.nil_append] at heq
        have heqR : c :: cs = x ++ (mid ++ (y ++ post)) := by
          simpa [List.append_assoc] using heq
        have hlit : litAt p (c :: cs) = true :=
          (litAt_iff p _).mpr ⟨x, mid ++ (y ++ post), heqR, hmap⟩
        refine ⟨hlit, ?_⟩
        have hlen : x.length = p.length := by
          rw [← hmap, List.length_map]
        rw [heqR, ← hlen, drop_len_append]
        refine (dotStarLit_iff q _).mpr ⟨mid, y, post, ?_, hall, hmap2⟩
        rw [List.append_assoc]
      | cons a pres =>
        right
        simp only [List.cons_append, List.cons.injEq] at heq
        obtain ⟨rfl, hcs⟩ := heq
        exact ih.mpr ⟨pres, x, mid, y, post, hcs, hmap, hall, hmap2⟩

/-- The version-increment regex test agrees with its declarative reading. -/
theorem versionRegexp_iff (s : List Char) :
    reTest vLit1 vLit2 s = true ↔ VersionCommitMatch s := by
  rw [reTest_iff]
  rfl

/-- The changelog regex test agrees with its declarative reading: the
trailing `.*` always matches, so the test is containment of the literal. -/
theorem changelogRegexp_iff (s : List Char) :
    reTest cLit [] s = true ↔ ChangelogCommitMatch s := by
  rw [reTest_iff]
  constructor
  · rintro ⟨pre, x, mid, y, post, heq, hmap, hall, hmap2⟩
    have hy : y = [] := by
      cases y with
      | nil => rfl
      | cons a ys => simp at hmap2
    subst hy
    exact ⟨pre, x, mid ++ post, by simp [heq], hmap⟩
  · rintro ⟨pre, x, post, heq, hmap⟩
    exact ⟨pre, x, [], [], post, by simp [heq], hmap, rfl, rfl⟩

/-- C8: `IsReleaseCommit` returns true exactly when the resolved after
commit message matches `/Version: increment after .* release/i` or
`/Changelog: add release .*/i` (in their declarative readings), and it
returns false when the after commit is absent, its message is absent, or
the message is empty; two concrete messages exercise the true and the
false side. -/
theorem C8_IsReleaseCommit_spec :
    (∀ after : Option (Option (List Char)),
      IsReleaseCommit after = true ↔
        VersionCommitMatch (commitMessageOf after) ∨
        ChangelogCommitMatch (commitMessageOf after)) ∧
    IsReleaseCommit none = false ∧
    IsReleaseCommit (some none) = false ∧
    IsReleaseCommit (some (some [])) = false ∧
    IsReleaseCommit (some (some ("Version: increment after 1.0.1 release".data))) = true ∧
    IsReleaseCommit (some (some ("Merge pull request 42".data))) = false := by
  refine ⟨?_, by decide, by decide, by decide, by decide, by decide⟩
  intro after
  rw [IsReleaseCommit, Bool.or_eq_true, versionRegexp_iff, changelogRegexp_iff]

/-- C10 counterexample: the message built as
`"Version: increment after " ++ "\n" ++ " release"` contains the phrase
"Version: increment after <anything> release" with a line feed as the
in-between text, yet the classifier returns false, because JavaScript `.`
does not match line terminators. -/
theorem C10_counterexample :
    IsReleaseCommit
      (some (some (("Version: increment after " ++ "\n" ++ " release").data))) = false := by
  decide

/-- C10 amended: the patterns are unanchored substring matches — for any
surrounding text, any letter case of the literal parts, and any
in-between text made of characters that are not line terminators (the
JavaScript `.` class), the classifier returns true. -/
theorem C10_unanchored_amended :
    (∀ pre x mid y post : List Char,
      x.map Char.toLower = vLit1 → mid.all dotCh = true → y.map Char.toLower = vLit2 →
      IsReleaseCommit (some (some (pre ++ x ++ mid ++ y ++ post))) = true) ∧
    (∀ pre x post : List Char,
      x.map Char.toLower = cLit →
      IsReleaseCommit (some (some (pre ++ x ++ post))) = true) := by
  have hmsg : ∀ m : List Char, commitMessageOf (some (some m)) = m := by
    intro m
    cases m with
    | nil => rfl
    | cons a ms => rfl
  constructor
  · intro pre x mid y post hx hm hy
    rw [IsReleaseCommit, hmsg, Bool.or_eq_true]
    left
    exact (versionRegexp_iff _).mpr ⟨pre, x, mid, y, post, rfl, hx, hm, hy⟩
  · intro pre x post hx
    rw [IsReleaseCommit, hmsg, Bool.or_eq_true]
    right
    exact (changelogRegexp_iff _).mpr ⟨pre, x, post, rfl, hx⟩

/-- C10 amended witness: a version-increment phrase in mixed case with
surrounding text, and a changelog phrase mid-message, both classified as
release commits. -/
theorem C10_unanchored_amended_witness :
    IsReleaseCommit (some (some ("xyz ".data ++ "VERSION: Increment After ".data ++
      "2.0.17".data ++ " RELEASE".data ++ " tail".data))) = true ∧
    IsReleaseCommit (some (some ("see ".data ++ "Changelog: add release ".data ++
      "1.2.3".data))) = true := by
  constructor
  · exact C10_unanchored_amended.1 "xyz ".data "VERSION: Increment After ".data
      "2.0.17".data " RELEASE".data " tail".data (by decide) (by decide) (by decide)
  · exact C10_unanchored_amended.2 "see ".data "Changelog: add release ".data
      "1.2.3".data (by decide)

end SdmPackVersion
